import Mathlib

/-!
Verification of the execution-and-commit pipeline of this repository:
the executor (src/executor/src/lib.rs), the ledger store
(src/storage/libradb/src/lib.rs) and the faucet mint handler
(src/crates/diem-faucet/src/mint.rs), shallowly embedded in Lean.

Cryptographic digests are modelled by a free term algebra `HashValue`
(an ideal, collision-free hash), machine integers by `Nat` (the checks
below never wrap in the source either; where a u64 subtraction could
underflow, the embedding has an explicit abort branch mirroring the
debug-build panic).  Rust `Result` values are `Except`; a Rust panic
(`assert!`, `assert_eq!`, `expect`, `zip_eq` length mismatch) is
modelled by a dedicated error constructor `ExecErr.abort` so that
process aborts stay distinguishable from recoverable errors returned
to the caller.  Stateful storage is explicit state passing: a store
operation takes a `StoreState` and returns `Except E StoreState`; an
`Except.error` result means the atomic batch was rejected and the
caller still holds the unchanged old store, exactly as the source
builds a pending `ChangeSet` and only writes it after all checks pass.
-/

/-- Opaque 32-byte digests of the source, modelled as a free term algebra:
`placeholder` is the reserved all-zero hash, `raw` tags opaque leaf data,
`node` is the binary Merkle combination, `txn` a transaction hash,
`event` a `ContractEvent` hash, `txnInfo` the hash of a `TransactionInfo`
record.  Distinct constructors never collide: the model is an ideal hash. -/
inductive HashValue where
  | placeholder : HashValue
  | raw (n : Nat) : HashValue
  | node (l r : HashValue) : HashValue
  | txn (n : Nat) : HashValue
  | event (key data : Nat) : HashValue
  | txnInfo (txnHash stateRoot eventRoot : HashValue) (gas major : Nat) : HashValue
deriving DecidableEq, Repr

/-- One level of the padded Merkle accumulator: adjacent leaves are combined,
a lone rightmost node is combined with the placeholder (the conceptual
padding to the next power of two used by the in-memory accumulator). -/
def merkleLevel : List HashValue → List HashValue
  | [] => []
  | [x] => [HashValue.node x HashValue.placeholder]
  | x :: y :: rest => HashValue.node x y :: merkleLevel rest

/-- Merkle root of a leaf list with fuel (the fuel, the list length, always
suffices because each level at least halves a list of length two or more). -/
def merkleRootFuel : Nat → List HashValue → HashValue
  | _, [] => HashValue.placeholder
  | _, [x] => x
  | 0, x :: _ :: _ => x
  | fuel + 1, x :: y :: rest => merkleRootFuel fuel (merkleLevel (x :: y :: rest))

/-- Root of the append-only Merkle accumulator over a list of leaves:
the empty accumulator has the placeholder root. -/
def merkleRoot (leaves : List HashValue) : HashValue := merkleRootFuel leaves.length leaves

/-- In-memory Merkle accumulator (`InMemoryAccumulator` of `libra_types`,
an external collaborator of the surveyed code) modelled by the list of its
leaves; the frozen-subtree representation of the source is an optimization
of exactly this abstract state. -/
structure InMemoryAccumulator where
  leaves : List HashValue
deriving DecidableEq, Repr

def InMemoryAccumulator.num_leaves (a : InMemoryAccumulator) : Nat := a.leaves.length

def InMemoryAccumulator.root_hash (a : InMemoryAccumulator) : HashValue := merkleRoot a.leaves

def InMemoryAccumulator.append (a : InMemoryAccumulator) (new : List HashValue) : InMemoryAccumulator :=
  ⟨a.leaves ++ new⟩

def InMemoryAccumulator.from_leaves (l : List HashValue) : InMemoryAccumulator := ⟨l⟩

/-- In-memory sparse Merkle tree overlay (`scratchpad::SparseMerkleTree`,
an external collaborator) modelled as a base root plus the overlay's
key-hash to value-hash entries; `update` with an empty batch returns the
tree unchanged, as in the source. -/
structure SparseMerkleTree where
  base : HashValue
  entries : List (HashValue × HashValue)
deriving DecidableEq, Repr

def SparseMerkleTree.update (t : SparseMerkleTree) (batch : List (HashValue × HashValue)) :
    SparseMerkleTree :=
  { t with entries := batch.foldl (fun es p => p :: es.filter (fun q => decide (¬ q.1 = p.1))) t.entries }

def SparseMerkleTree.root_hash (t : SparseMerkleTree) : HashValue :=
  t.entries.foldl (fun acc p => HashValue.node acc (HashValue.node p.1 p.2)) t.base

/-- An account state blob: the serialized ordered path-to-value map of an
account (paths and values are opaque byte strings, modelled as `Nat`). -/
abbrev AccountStateBlob := List (Nat × Nat)

def hashBlob (b : AccountStateBlob) : HashValue :=
  b.foldl (fun acc p => HashValue.node acc (HashValue.node (HashValue.raw p.1) (HashValue.raw p.2))) HashValue.placeholder

def addrHash (a : Nat) : HashValue := HashValue.raw a

/-- Contract event: key and payload bytes, both opaque. -/
structure ContractEvent where
  key : Nat
  event_data : Nat
deriving DecidableEq, Repr

def ContractEvent.hash (e : ContractEvent) : HashValue := HashValue.event e.key e.event_data

inductive WriteOp where
  | value (v : Nat) : WriteOp
  | deletion : WriteOp
deriving DecidableEq, Repr

structure AccessPath where
  address : Nat
  path : Nat
deriving DecidableEq, Repr

inductive TransactionPayload where
  | program : TransactionPayload
  | moduleCode (m : Nat) : TransactionPayload
  | script (s : Nat) : TransactionPayload
  | writeSetPayload (w : Nat) : TransactionPayload
deriving DecidableEq, Repr

/-- A transaction: an opaque identity (fixing its hash) plus its payload kind,
which is all `process_write_set` inspects. -/
structure Transaction where
  ident : Nat
  payload : TransactionPayload
deriving DecidableEq, Repr

def Transaction.hash (t : Transaction) : HashValue := HashValue.txn t.ident

structure VMStatus where
  major_status : Nat
deriving DecidableEq, Repr

inductive TransactionStatus where
  | keep (s : VMStatus) : TransactionStatus
  | discard (s : VMStatus) : TransactionStatus
deriving DecidableEq, Repr

def TransactionStatus.isKeep : TransactionStatus → Bool
  | .keep _ => true
  | .discard _ => false

def TransactionStatus.vm_status : TransactionStatus → VMStatus
  | .keep s => s
  | .discard s => s

/-- `TransactionInfo` record accumulated by the transaction accumulator
(src/storage/libradb/src/lib.rs save_transactions_impl and
src/executor/src/lib.rs process_vm_outputs build the same record). -/
structure TransactionInfo where
  transaction_hash : HashValue
  state_root_hash : HashValue
  event_root_hash : HashValue
  gas_used : Nat
  major_status : Nat
deriving DecidableEq, Repr

def TransactionInfo.hash (t : TransactionInfo) : HashValue :=
  HashValue.txnInfo t.transaction_hash t.state_root_hash t.event_root_hash t.gas_used t.major_status

/-- Validator set, opaque payload decoded from a reconfiguration event. -/
structure ValidatorSet where
  data : Nat
deriving DecidableEq, Repr

/-- Ledger info carried by consensus: epoch, version, the transaction
accumulator root it commits to and the optional next validator set. -/
structure LedgerInfo where
  epoch : Nat
  version : Nat
  transaction_accumulator_hash : HashValue
  next_validator_set : Option ValidatorSet
deriving DecidableEq, Repr

/-- Epoch of the next block: bumped exactly when this ledger info carries a
next validator set (epoch-ending ledger info). -/
def LedgerInfo.next_block_epoch (x : LedgerInfo) : Nat :=
  if x.next_validator_set.isSome then x.epoch + 1 else x.epoch

/-- `TransactionToCommit` handed from the executor to storage. -/
structure TransactionToCommit where
  transaction : Transaction
  account_states : List (Nat × AccountStateBlob)
  events : List ContractEvent
  gas_used : Nat
  major_status : Nat
deriving DecidableEq, Repr

/-- Index row of the event-by-key column family: (key, seq, version, index).
Modelled from the spec: the event store module is not part of the surveyed
sources, only its read contract (section 4.4) is. -/
structure EventIndexEntry where
  key : Nat
  seq : Nat
  version : Nat
  idx : Nat
deriving DecidableEq, Repr

/-- The persistent ledger store state: transaction accumulator leaves
(txn-info hashes), persisted transactions, the JMT root, the ledger infos
keyed by epoch, the cached latest ledger info and the event index.
Modelled from the spec: the sub-store modules (ledger_store, state_store,
event_store, transaction_store) are declared but not among the surveyed
sources; their write effects follow section 4.4 of the design. -/
structure StoreState where
  txnAccLeaves : List HashValue
  txns : List TransactionToCommit
  stateRoot : HashValue
  ledgerInfoByEpoch : List (Nat × LedgerInfo)
  latestLI : Option LedgerInfo
  eventIndex : List EventIndexEntry
deriving DecidableEq, Repr

inductive DbError where
  | emptyBatchNoLedgerInfo : DbError
  | batchNotApplicable : DbError
  | rootHashMismatch : DbError
  | tooManyRequested : DbError
  | badEpochRange : DbError
  | epochNotEnded : DbError
  | dbCorruptMissingEpochLI : DbError
  | limitZero : DbError
  | missingLedgerInfo : DbError
  | missingData : DbError
deriving DecidableEq, Repr

def hashStates (states : List (Nat × AccountStateBlob)) : HashValue :=
  states.foldl (fun acc p => HashValue.node acc (HashValue.node (addrHash p.1) (hashBlob p.2))) HashValue.placeholder

/-- Per-transaction post-state JMT roots produced by `put_account_state_sets`.
Modelled from the spec: each value-set insertion moves the versioned state
root; the model combines the previous root with the digest of the set. -/
def stateRootsFrom (r : HashValue) : List TransactionToCommit → List HashValue
  | [] => []
  | t :: rest =>
      let r1 := HashValue.node r (hashStates t.account_states)
      r1 :: stateRootsFrom r1 rest

/-- Per-transaction event accumulator root (`put_events`), the Merkle root of
the event hashes, as in the executor's per-transaction event tree. -/
def eventRootOf (events : List ContractEvent) : HashValue :=
  merkleRoot (events.map ContractEvent.hash)

def txnInfosOf (stateRoots : List HashValue) (txns : List TransactionToCommit) : List TransactionInfo :=
  (txns.zip stateRoots).map (fun p =>
    { transaction_hash := p.1.transaction.hash
      state_root_hash := p.2
      event_root_hash := eventRootOf p.1.events
      gas_used := p.1.gas_used
      major_status := p.1.major_status })

/-- Embedding of `LibraDB::save_transactions_impl` (src/storage/libradb/src/lib.rs
lines 415 to 467): account state updates, event and transaction writes,
`TransactionInfo` construction and the transaction accumulator append; it
returns the accumulator root recomputed after applying `txns_to_commit`
together with the pending (not yet committed) store mutation.  The
`first_version` argument names the version of the first transaction; the
callers below always pass the current leaf count (section 4.4 precondition),
so the model appends. -/
def save_transactions_impl (s : StoreState) (txns_to_commit : List TransactionToCommit)
    (first_version : Nat) : HashValue × StoreState :=
  let _ := first_version
  let stateRoots := stateRootsFrom s.stateRoot txns_to_commit
  let infos := txnInfosOf stateRoots txns_to_commit
  let newLeaves := s.txnAccLeaves ++ infos.map TransactionInfo.hash
  (merkleRoot newLeaves,
   { s with
      txnAccLeaves := newLeaves
      txns := s.txns ++ txns_to_commit
      stateRoot := stateRoots.getLastD s.stateRoot })

/-- The accumulator root recomputed after applying `txns_to_commit`, the value
`save_transactions` compares against a supplied ledger info. -/
def save_root (s : StoreState) (txns_to_commit : List TransactionToCommit) (first_version : Nat) :
    HashValue :=
  (save_transactions_impl s txns_to_commit first_version).1

/-- `LedgerStore::put_ledger_info`: writes the ledger info keyed by its epoch.
Modelled from the spec (section 4.4, ledger_store is not among the sources). -/
def put_ledger_info (s : StoreState) (x : LedgerInfo) : StoreState :=
  { s with ledgerInfoByEpoch := (x.epoch, x) :: s.ledgerInfoByEpoch }

def set_latest_ledger_info (s : StoreState) (x : LedgerInfo) : StoreState :=
  { s with latestLI := some x }

/-- The version precheck of `save_transactions`: when a ledger info is
supplied, its version plus one must equal `first_version + num_txns`. -/
def versionMatches : Option LedgerInfo → Nat → Nat → Bool
  | some x, first_version, num_txns => decide (x.version + 1 = first_version + num_txns)
  | none, _, _ => true

/-- Embedding of `DbWriter::save_transactions` for `LibraDB`
(src/storage/libradb/src/lib.rs lines 739 to 806).  All mutations are
gathered into a pending change set (here: the state returned by
`save_transactions_impl`) and committed atomically only after every check
passes; an `Except.error` result therefore leaves the store untouched. -/
def save_transactions (s : StoreState) (txns_to_commit : List TransactionToCommit)
    (first_version : Nat) (ledger_info_with_sigs : Option LedgerInfo) : Except DbError StoreState :=
  let num_txns := txns_to_commit.length
  if ledger_info_with_sigs = none ∧ num_txns = 0 then
    .error .emptyBatchNoLedgerInfo
  else if versionMatches ledger_info_with_sigs first_version num_txns = false then
    .error .batchNotApplicable
  else
    let res := save_transactions_impl s txns_to_commit first_version
    match ledger_info_with_sigs with
    | some x =>
        if res.1 = x.transaction_accumulator_hash then
          .ok (set_latest_ledger_info (put_ledger_info res.2 x) x)
        else
          .error .rootHashMismatch
    | none => .ok res.2

def MAX_LIMIT : Nat := 1000

def MAX_NUM_EPOCH_ENDING_LEDGER_INFO : Nat := 100

/-- Embedding of `error_if_too_many_requested`
(src/storage/libradb/src/lib.rs lines 115 to 121). -/
def error_if_too_many_requested (num_requested max_allowed : Nat) : Except DbError Unit :=
  if num_requested > max_allowed then .error .tooManyRequested else .ok ()

/-- Reads the epoch-ending ledger infos stored for the epochs in
[start, stop) (`get_epoch_ending_ledger_info_iter`).  Modelled from the
spec: ledger_store is not among the sources; a missing epoch simply yields
a shorter list and is caught by the length check of the caller. -/
def epochLIsInRange (s : StoreState) (start stop : Nat) : List LedgerInfo :=
  (List.range' start (stop - start)).filterMap
    (fun e => (s.ledgerInfoByEpoch.find? (fun p => decide (p.1 = e))).map Prod.snd)

/-- Embedding of `LibraDB::get_epoch_ending_ledger_infos_impl`
(src/storage/libradb/src/lib.rs lines 211 to 255). -/
def get_epoch_ending_ledger_infos_impl (s : StoreState) (start_epoch end_epoch limit : Nat) :
    Except DbError (List LedgerInfo × Bool) :=
  if ¬ start_epoch ≤ end_epoch then .error .badEpochRange
  else
    match s.latestLI with
    | none => .error .missingLedgerInfo
    | some latest =>
        let latest_epoch := latest.next_block_epoch
        if ¬ end_epoch ≤ latest_epoch then .error .epochNotEnded
        else
          let pm := if end_epoch - start_epoch > limit then (start_epoch + limit, true)
                    else (end_epoch, false)
          let lis := epochLIsInRange s start_epoch pm.1
          if lis.length = pm.1 - start_epoch then .ok (lis, pm.2)
          else .error .dbCorruptMissingEpochLI

/-- Embedding of the public `LibraDB::get_epoch_ending_ledger_infos`
(src/storage/libradb/src/lib.rs lines 199 to 209): hard cap of 100 items. -/
def get_epoch_ending_ledger_infos (s : StoreState) (start_epoch end_epoch : Nat) :
    Except DbError (List LedgerInfo × Bool) :=
  get_epoch_ending_ledger_infos_impl s start_epoch end_epoch MAX_NUM_EPOCH_ENDING_LEDGER_INFO

/-- Executor-side speculative trees (`ExecutedTrees`,
src/executor/src/lib.rs lines 879 to 935). -/
structure ExecutedTrees where
  state_tree : SparseMerkleTree
  transaction_accumulator : InMemoryAccumulator
deriving DecidableEq, Repr

def ExecutedTrees.version (t : ExecutedTrees) : Option Nat :=
  let num_elements := t.transaction_accumulator.num_leaves
  if num_elements > 0 then some (num_elements - 1) else none

def ExecutedTrees.state_id (t : ExecutedTrees) : HashValue :=
  t.transaction_accumulator.root_hash

def ExecutedTrees.state_root (t : ExecutedTrees) : HashValue :=
  t.state_tree.root_hash

def ExecutedTrees.new_empty : ExecutedTrees :=
  { state_tree := { base := HashValue.placeholder, entries := [] }
    transaction_accumulator := ⟨[]⟩ }

/-- Per-transaction output of the VM (`TransactionOutput` of `libra_types`). -/
structure TransactionOutput where
  write_set : List (AccessPath × WriteOp)
  events : List ContractEvent
  gas_used : Nat
  status : TransactionStatus
deriving DecidableEq, Repr

/-- Per-transaction data produced by the executor (`TransactionData`,
src/executor/src/lib.rs lines 119 to 211). -/
structure TransactionData where
  account_blobs : List (Nat × AccountStateBlob)
  events : List ContractEvent
  status : TransactionStatus
  state_tree : SparseMerkleTree
  event_tree : InMemoryAccumulator
  gas_used : Nat
  num_account_created : Nat
  txn_info_hash : Option HashValue
deriving DecidableEq, Repr

/-- Output of processing a block (`ProcessedVMOutput`,
src/executor/src/lib.rs lines 213 to 287). -/
structure ProcessedVMOutput where
  transaction_data : List TransactionData
  executed_trees : ExecutedTrees
  validators : Option ValidatorSet
deriving DecidableEq, Repr

def ProcessedVMOutput.accu_root (o : ProcessedVMOutput) : HashValue :=
  o.executed_trees.transaction_accumulator.root_hash

structure ExecutedState where
  state_id : HashValue
  version : Nat
  validators : Option ValidatorSet
deriving DecidableEq, Repr

structure StateComputeResult where
  executed_state : ExecutedState
  compute_status : List TransactionStatus
deriving DecidableEq, Repr

/-- Embedding of `ProcessedVMOutput::state_compute_result`
(src/executor/src/lib.rs lines 266 to 286): the zero-leaf case is mapped
to version 0. -/
def ProcessedVMOutput.state_compute_result (o : ProcessedVMOutput) : StateComputeResult :=
  let num_leaves := o.executed_trees.transaction_accumulator.num_leaves
  let version := if num_leaves = 0 then 0 else num_leaves - 1
  { executed_state :=
      { state_id := o.accu_root
        version := version
        validators := o.validators }
    compute_status := o.transaction_data.map TransactionData.status }

/-- Kinds of process aborts (Rust panics: `assert!`, `assert_eq!`, `expect`,
`zip_eq` length mismatch, u64 underflow in a debug build). -/
inductive AbortKind where
  | zipMismatch : AbortKind
  | emptyBlockList : AbortKind
  | versionAssert : AbortKind
  | underflowSub : AbortKind
  | firstVersionAssert : AbortKind
  | commitVersionAssert : AbortKind
  | missingFirstVersion : AbortKind
deriving DecidableEq, Repr

/-- Executor errors.  `abort` models a process abort (panic); every other
constructor models a recoverable `Err` returned to the caller (`bail!`,
`ensure!`, or a storage error propagated with the question mark operator).
`versionMismatch` is the recoverable error kind the design document expects
for a speculative-leaf-count mismatch; the code model never produces it. -/
inductive ExecErr where
  | abort (k : AbortKind) : ExecErr
  | keptEmptyWriteSet : ExecErr
  | discardNonEmptyWriteSet : ExecErr
  | discardNonEmptyEvents : ExecErr
  | writeBeforeRead : ExecErr
  | chunkTooNew : ExecErr
  | chunkProofFailed : ExecErr
  | chunkHasDiscard : ExecErr
  | chunkRootMismatch : ExecErr
  | versionMismatch : ExecErr
  | storage (e : DbError) : ExecErr
deriving DecidableEq, Repr

/-- An error is recoverable when it is returned to the caller rather than
aborting the process. -/
def ExecErr.isRecoverable : ExecErr → Bool
  | .abort _ => false
  | _ => true

/-- Account-address to account-map association (the `account_to_btree`
`HashMap` consumed from the verified state view). -/
abbrev AccountMap := List (Nat × List (Nat × Nat))

def assocGet (m : AccountMap) (a : Nat) : Option (List (Nat × Nat)) :=
  (m.find? (fun p => decide (p.1 = a))).map Prod.snd

def assocSet (m : AccountMap) (a : Nat) (v : List (Nat × Nat)) : AccountMap :=
  (a, v) :: m.filter (fun p => decide (¬ p.1 = a))

def btreeInsert (m : List (Nat × Nat)) (k v : Nat) : List (Nat × Nat) :=
  (k, v) :: m.filter (fun p => decide (¬ p.1 = k))

def btreeRemove (m : List (Nat × Nat)) (k : Nat) : List (Nat × Nat) :=
  m.filter (fun p => decide (¬ p.1 = k))

/-- Embedding of `Executor::update_account_btree`
(src/executor/src/lib.rs lines 867 to 876). -/
def update_account_btree (m : List (Nat × Nat)) (path : Nat) : WriteOp → List (Nat × Nat)
  | .value v => btreeInsert m path v
  | .deletion => btreeRemove m path

def addTouched (touched : List Nat) (a : Nat) : List Nat :=
  if touched.contains a then touched else touched ++ [a]

/-- The write-op loop of `Executor::process_write_set`
(src/executor/src/lib.rs lines 811 to 845): threads the account map, the
created-account count and the touched-address set; a write to an account
the VM never read fails (`Write set should be a subset of read set`) unless
the transaction is a write-set (system) transaction. -/
def applyWriteOps (txn : Transaction) :
    AccountMap → Nat → List Nat → List (AccessPath × WriteOp) →
    Except ExecErr (AccountMap × Nat × List Nat)
  | a2b, created, touched, [] => .ok (a2b, created, touched)
  | a2b, created, touched, (ap, op) :: rest =>
      match assocGet a2b ap.address with
      | some btree =>
          let created1 := if btree.isEmpty then created + 1 else created
          let btree1 := update_account_btree btree ap.path op
          applyWriteOps txn (assocSet a2b ap.address btree1) created1 (addTouched touched ap.address) rest
      | none =>
          match txn.payload with
          | .program => .error .writeBeforeRead
          | .moduleCode _ => .error .writeBeforeRead
          | .script _ => .error .writeBeforeRead
          | .writeSetPayload _ =>
              let btree1 := update_account_btree [] ap.path op
              applyWriteOps txn (assocSet a2b ap.address btree1) created (addTouched touched ap.address) rest

/-- Embedding of `Executor::process_write_set`
(src/executor/src/lib.rs lines 797 to 865): applies the write set to the
account maps, re-serializes the touched accounts to blobs and updates the
sparse Merkle tree with the (address-hash, blob-hash) pairs. -/
def process_write_set (txn : Transaction) (a2b : AccountMap)
    (write_set : List (AccessPath × WriteOp)) (previous_state_tree : SparseMerkleTree) :
    Except ExecErr (List (Nat × AccountStateBlob) × SparseMerkleTree × Nat × AccountMap) :=
  match applyWriteOps txn a2b 0 [] write_set with
  | .error e => .error e
  | .ok (a2b1, created, touched) =>
      let updated_blobs := touched.filterMap (fun a => (assocGet a2b1 a).map (fun m => (a, m)))
      let state_tree := previous_state_tree.update
        (updated_blobs.map (fun p => (addrHash p.1, hashBlob p.2)))
      .ok (updated_blobs, state_tree, created, a2b1)

/-- The well-known validator-set change event key
(`ValidatorSet::change_event_key()` of `libra_types`, opaque constant). -/
def validator_set_change_event_key : Nat := 777

/-- Decoding of a validator set from event payload bytes
(`ValidatorSet::from_bytes`); decoding itself is external to the surveyed
sources and modelled as a total injection. -/
def ValidatorSet.from_bytes (b : Nat) : ValidatorSet := ⟨b⟩

/-- First event of a transaction whose key is the validator-set change key:
the inner scan of process_vm_outputs stops at the first match (`break`). -/
def firstChangeEvent (events : List ContractEvent) : Option ContractEvent :=
  events.find? (fun e => decide (e.key = validator_set_change_event_key))

def scanValidators (out : TransactionOutput) : Option ValidatorSet :=
  (firstChangeEvent out.events).map (fun e => ValidatorSet.from_bytes e.event_data)

/-- The Keep/Discard match of `process_vm_outputs`
(src/executor/src/lib.rs lines 727 to 757): a kept transaction must have a
non-empty write set and yields the hash of its `TransactionInfo`; a
discarded transaction must have an empty write set and no events and
yields no txn-info hash. -/
def keepDiscardCheck (out : TransactionOutput) (state_tree : SparseMerkleTree)
    (event_tree : InMemoryAccumulator) (txn : Transaction) : Except ExecErr (Option HashValue) :=
  match out.status with
  | .keep s =>
      if out.write_set.isEmpty then .error .keptEmptyWriteSet
      else
        let ti : TransactionInfo :=
          { transaction_hash := txn.hash
            state_root_hash := state_tree.root_hash
            event_root_hash := event_tree.root_hash
            gas_used := out.gas_used
            major_status := s.major_status }
        .ok (some ti.hash)
  | .discard _ =>
      if ¬ out.write_set.isEmpty then .error .discardNonEmptyWriteSet
      else if ¬ out.events.isEmpty then .error .discardNonEmptyEvents
      else .ok none

/-- The per-transaction loop of `Executor::process_vm_outputs`
(src/executor/src/lib.rs lines 711 to 779), with the state it threads made
explicit: the account map, the current state tree, and on return the
transaction data list, the final state tree, the kept txn-info hashes and
the accumulated next validator set (a later transaction with a matching
event overwrites the value set by an earlier one, as the source's mutable
`next_validator_set` does). -/
def process_loop (a2b : AccountMap) (cur : SparseMerkleTree) :
    List (TransactionOutput × Transaction) →
    Except ExecErr (List TransactionData × SparseMerkleTree × List HashValue × Option ValidatorSet)
  | [] => .ok ([], cur, [], none)
  | (out, txn) :: rest =>
      match process_write_set txn a2b out.write_set cur with
      | .error e => .error e
      | .ok (blobs, state_tree, created, a2b1) =>
          match keepDiscardCheck out state_tree
              (InMemoryAccumulator.from_leaves (out.events.map ContractEvent.hash)) txn with
          | .error e => .error e
          | .ok txn_info_hash =>
              match process_loop a2b1 state_tree rest with
              | .error e => .error e
              | .ok (td, cur1, hashes, nvsRest) =>
                  .ok ({ account_blobs := blobs
                         events := out.events
                         status := out.status
                         state_tree := state_tree
                         event_tree := InMemoryAccumulator.from_leaves
                           (out.events.map ContractEvent.hash)
                         gas_used := out.gas_used
                         num_account_created := created
                         txn_info_hash := txn_info_hash } :: td,
                       cur1,
                       (match txn_info_hash with | some h => h :: hashes | none => hashes),
                       (match nvsRest with | some v => some v | none => scanValidators out))

/-- Embedding of `Executor::process_vm_outputs`
(src/executor/src/lib.rs lines 692 to 792).  `itertools::zip_eq` panics on
a length mismatch; the model checks the lengths up front. -/
def process_vm_outputs (a2b : AccountMap) (transactions : List Transaction)
    (vm_outputs : List TransactionOutput) (parent_trees : ExecutedTrees) :
    Except ExecErr ProcessedVMOutput :=
  if vm_outputs.length = transactions.length then
    match process_loop a2b parent_trees.state_tree (vm_outputs.zip transactions) with
    | .error e => .error e
    | .ok (td, cur, hashes, nvs) =>
        .ok { transaction_data := td
              executed_trees :=
                { state_tree := cur
                  transaction_accumulator := parent_trees.transaction_accumulator.append hashes }
              validators := nvs }
  else .error (.abort .zipMismatch)

def mkTransactionToCommit (txn : Transaction) (td : TransactionData) : TransactionToCommit :=
  { transaction := txn
    account_states := td.account_blobs
    events := td.events
    gas_used := td.gas_used
    major_status := td.status.vm_status.major_status }

/-- The kept transactions of a block batch, in order, paired with their
created-account counts (the `txns_to_keep` loop of `commit_blocks`,
src/executor/src/lib.rs lines 450 to 468). -/
def txns_to_keep_of (blocks : List (List Transaction × ProcessedVMOutput)) :
    List (TransactionToCommit × Nat) :=
  blocks.flatMap (fun b =>
    (b.1.zip b.2.transaction_data).filterMap (fun p =>
      if p.2.status.isKeep then some (mkTransactionToCommit p.1 p.2, p.2.num_account_created)
      else none))

/-- Length agreement between each block's transaction list and its
transaction data, which `itertools::zip_eq` enforces by panicking. -/
def blocksZipOk (blocks : List (List Transaction × ProcessedVMOutput)) : Bool :=
  blocks.all (fun b => decide (b.1.length = b.2.transaction_data.length))

def liftStorage (r : Except DbError StoreState) : Except ExecErr StoreState :=
  match r with
  | .ok s => .ok s
  | .error e => .error (.storage e)

/-- Embedding of `Executor::commit_blocks`
(src/executor/src/lib.rs lines 435 to 539).  The source checks the ledger
info version against the speculative accumulator with `assert_eq!` and the
skip bound with `assert!`; both are process aborts here, not returned
errors.  The u64 subtraction `version + 1 - num_txns_to_keep` panics on
underflow in a debug build and is modelled by an explicit abort branch.
On success the store state returned by `save_transactions` is passed
through (the pruning of per-transaction state trees releases memory only
and does not change the store). -/
def commit_blocks (s : StoreState) (blocks : List (List Transaction × ProcessedVMOutput))
    (ledger_info : LedgerInfo) (synced_trees : ExecutedTrees) : Except ExecErr StoreState :=
  let num_persistent_txns := synced_trees.transaction_accumulator.num_leaves
  if blocksZipOk blocks = false then .error (.abort .zipMismatch)
  else
    let txns_to_keep := txns_to_keep_of blocks
    let num_txns_to_keep := txns_to_keep.length
    match blocks.getLast? with
    | none => .error (.abort .emptyBlockList)
    | some last_block =>
        let version := ledger_info.version
        let num_txns_in_speculative_accumulator :=
          last_block.2.executed_trees.transaction_accumulator.num_leaves
        if ¬ version + 1 = num_txns_in_speculative_accumulator then
          .error (.abort .versionAssert)
        else if num_txns_to_keep > version + 1 then
          .error (.abort .underflowSub)
        else
          let first_version_to_keep := version + 1 - num_txns_to_keep
          if ¬ first_version_to_keep ≤ num_persistent_txns then
            .error (.abort .firstVersionAssert)
          else
            let num_txns_to_skip := num_persistent_txns - first_version_to_keep
            let first_version_to_commit := first_version_to_keep + num_txns_to_skip
            let txns_to_commit := (txns_to_keep.map Prod.fst).drop num_txns_to_skip
            let num_txns_to_commit := txns_to_commit.length
            if ¬ first_version_to_commit = version + 1 - num_txns_to_commit then
              .error (.abort .commitVersionAssert)
            else
              liftStorage (save_transactions s txns_to_commit first_version_to_commit (some ledger_info))

/-- A transaction list received from a peer with its range proof
(`TransactionListWithProof` of `libra_types`).  Modelled from the spec:
proof verification against a ledger info is external to the surveyed
sources and abstracted to the recorded verdict `proof_valid`. -/
structure TransactionListWithProof where
  transactions : List Transaction
  first_transaction_version : Option Nat
  proof_valid : Bool
deriving DecidableEq, Repr

def TransactionListWithProof.verify (tl : TransactionListWithProof) (ledger_info : LedgerInfo) :
    Except ExecErr Unit :=
  let _ := ledger_info
  if tl.proof_valid then .ok () else .error .chunkProofFailed

/-- Embedding of `Executor::verify_chunk`
(src/executor/src/lib.rs lines 660 to 689): after proof verification, an
empty chunk yields (0, num_committed); otherwise the first transaction
version must not exceed the number of committed transactions
(`Transaction list too new`), and the skip count is their difference. -/
def verify_chunk (txn_list_with_proof : TransactionListWithProof) (ledger_info : LedgerInfo)
    (num_committed_txns : Nat) : Except ExecErr (Nat × Nat) :=
  match txn_list_with_proof.verify ledger_info with
  | .error e => .error e
  | .ok _ =>
      if txn_list_with_proof.transactions = [] then .ok (0, num_committed_txns)
      else
        match txn_list_with_proof.first_transaction_version with
        | none => .error (.abort .missingFirstVersion)
        | some first_txn_version =>
            if first_txn_version ≤ num_committed_txns then
              .ok (num_committed_txns - first_txn_version, num_committed_txns)
            else .error .chunkTooNew

/-- Embedding of the sequence-number mirror update at the top of the faucet
mint handler `process` (src/crates/diem-faucet/src/mint.rs lines 109 to
121): given the on-chain treasury-compliance and designated-dealer
sequence numbers and the two local mirrors, returns the updated local
mirrors.  The designated-dealer branch of the source assigns `tc_seq`. -/
def faucet_update_local_sequences (tc_seq dd_seq local_tc local_dd : Nat) : Nat × Nat :=
  let local_tc1 := if tc_seq > local_tc then tc_seq else local_tc
  let local_dd1 := if dd_seq > local_dd then tc_seq else local_dd
  (local_tc1, local_dd1)

/-- The empty ledger store. -/
def emptyStore : StoreState :=
  { txnAccLeaves := [], txns := [], stateRoot := HashValue.placeholder,
    ledgerInfoByEpoch := [], latestLI := none, eventIndex := [] }

/-- A one-block batch whose output's speculative accumulator holds a single
leaf, used against a ledger info at version 5: the leaf count 1 differs
from version + 1 = 6. -/
def c5Block1 : List Transaction × ProcessedVMOutput :=
  ([⟨1, .script 0⟩],
    { transaction_data :=
        [{ account_blobs := [(1, [(0, 1)])]
           events := []
           status := .keep ⟨4001⟩
           state_tree := ExecutedTrees.new_empty.state_tree
           event_tree := ⟨[]⟩
           gas_used := 0
           num_account_created := 0
           txn_info_hash := some (HashValue.raw 0) }]
      executed_trees :=
        { state_tree := ExecutedTrees.new_empty.state_tree
          transaction_accumulator := ⟨[HashValue.raw 0]⟩ }
      validators := none })

def c5Blocks : List (List Transaction × ProcessedVMOutput) := [c5Block1]

def c5LedgerInfo : LedgerInfo :=
  { epoch := 0, version := 5, transaction_accumulator_hash := HashValue.placeholder,
    next_validator_set := none }

/-- A two-transaction block whose first kept transaction is already
persisted: the synced accumulator holds one leaf, the block's speculative
accumulator two. -/
def c2Block : List Transaction × ProcessedVMOutput :=
  ([⟨1, .writeSetPayload 0⟩, ⟨2, .writeSetPayload 0⟩],
   { transaction_data :=
       [{ account_blobs := [(1, [(0, 1)])]
          events := []
          status := .keep ⟨4001⟩
          state_tree := ExecutedTrees.new_empty.state_tree
          event_tree := ⟨[]⟩
          gas_used := 0
          num_account_created := 1
          txn_info_hash := some (HashValue.raw 10) },
        { account_blobs := [(2, [(0, 2)])]
          events := []
          status := .keep ⟨4001⟩
          state_tree := ExecutedTrees.new_empty.state_tree
          event_tree := ⟨[]⟩
          gas_used := 0
          num_account_created := 1
          txn_info_hash := some (HashValue.raw 11) }]
     executed_trees :=
       { state_tree := ExecutedTrees.new_empty.state_tree
         transaction_accumulator := ⟨[HashValue.raw 10, HashValue.raw 11]⟩ }
     validators := none })

def c2Blocks : List (List Transaction × ProcessedVMOutput) := [c2Block]

def c2Synced : ExecutedTrees :=
  ⟨ExecutedTrees.new_empty.state_tree, ⟨[HashValue.raw 10]⟩⟩

def c2LedgerInfo : LedgerInfo :=
  { epoch := 0, version := 1, transaction_accumulator_hash := HashValue.placeholder,
    next_validator_set := none }

def U64_MAX : Nat := 2 ^ 64 - 1

/-- Embedding of `get_first_seq_num_and_limit`
(src/storage/libradb/src/lib.rs lines 810 to 820). -/
def get_first_seq_num_and_limit (ascending : Bool) (cursor limit : Nat) :
    Except DbError (Nat × Nat) :=
  if limit = 0 then .error .limitZero
  else if ascending = true then .ok (cursor, limit)
  else if limit ≤ cursor then .ok (cursor - limit + 1, limit)
  else .ok (0, cursor + 1)

/-- `EventStore::get_latest_sequence_number` composed with the caller's
`unwrap_or(0)`.  Modelled from the spec: the event store module is not
among the surveyed sources. -/
def latest_sequence_number_or_zero (s : StoreState) (ledger_version key : Nat) : Nat :=
  ((s.eventIndex.filter (fun e => decide (e.key = key ∧ e.version ≤ ledger_version))).map
    EventIndexEntry.seq).foldl max 0

/-- `EventStore::lookup_events_by_key`: the (seq, version, index) triples of
up to `limit` events under `key` starting at `first_seq`, visible at
`ledger_version`.  Modelled from the spec (section 4.4 read contract). -/
def lookup_events_by_key (s : StoreState) (key first_seq limit ledger_version : Nat) :
    List (Nat × Nat × Nat) :=
  ((s.eventIndex.filter
      (fun e => decide (e.key = key ∧ first_seq ≤ e.seq ∧ e.version ≤ ledger_version))).take
    limit).map (fun e => (e.seq, e.version, e.idx))

/-- Embedding of `LibraDB::get_events_by_event_key`
(src/storage/libradb/src/lib.rs lines 318 to 388): limit gate first, then
cursor resolution, index lookup, the descending out-of-bound check and the
final reversal; the per-event proof assembly is abstracted away (the
function returns the located (seq, version, index) triples). -/
def get_events_by_event_key (s : StoreState) (key start_seq_num : Nat) (ascending : Bool)
    (limit ledger_version : Nat) : Except DbError (List (Nat × Nat × Nat)) :=
  match error_if_too_many_requested limit MAX_LIMIT with
  | .error e => .error e
  | .ok _ =>
      let cursor :=
        if ascending = false ∧ start_seq_num = U64_MAX then
          latest_sequence_number_or_zero s ledger_version key
        else start_seq_num
      match get_first_seq_num_and_limit ascending cursor limit with
      | .error e => .error e
      | .ok fr =>
          let event_keys := lookup_events_by_key s key fr.1 fr.2 ledger_version
          let event_keys1 :=
            if ascending = false then
              match event_keys.getLast? with
              | some last => if last.1 < cursor then [] else event_keys
              | none => event_keys
            else event_keys
          .ok (if ascending = true then event_keys1 else event_keys1.reverse)

/-- Embedding of `DbReader::get_transactions` for `LibraDB`
(src/storage/libradb/src/lib.rs lines 546 to 591): limit gate first, empty
result for an out-of-range start or zero limit, then the requested
transactions read from the store (events and the range proof are
abstracted away; missing rows surface as an error). -/
def get_transactions (s : StoreState) (start_version limit ledger_version : Nat)
    (fetch_events : Bool) : Except DbError TransactionListWithProof :=
  let _ := fetch_events
  match error_if_too_many_requested limit MAX_LIMIT with
  | .error e => .error e
  | .ok _ =>
      if ledger_version < start_version ∨ limit = 0 then
        .ok { transactions := [], first_transaction_version := none, proof_valid := true }
      else
        let limit1 := min limit (ledger_version - start_version + 1)
        let rows := (List.range' start_version limit1).map (fun v => s.txns[v]?)
        if rows.all Option.isSome then
          .ok { transactions := (rows.filterMap id).map TransactionToCommit.transaction
                first_transaction_version := some start_version
                proof_valid := true }
        else .error .missingData

def c7LedgerInfo : LedgerInfo :=
  { epoch := 0, version := 0, transaction_accumulator_hash := HashValue.placeholder,
    next_validator_set := some ⟨1⟩ }

def c7Store : StoreState :=
  { txnAccLeaves := [], txns := [], stateRoot := HashValue.placeholder,
    ledgerInfoByEpoch := [(0, c7LedgerInfo)], latestLI := some c7LedgerInfo, eventIndex := [] }

/-- The Keep/Discard write-set discipline of one VM output: a kept output
has a non-empty write set, a discarded output has an empty write set and
an empty event list. -/
def outputStatusOk (o : TransactionOutput) : Prop :=
  (o.status.isKeep = true → o.write_set ≠ []) ∧
  (o.status.isKeep = false → o.write_set = [] ∧ o.events = [])

/-- Starting from the state tree `prev`, every discarded transaction in the
data list leaves the state tree root unchanged, each entry chaining into
the next through its own state tree. -/
def discardChain : SparseMerkleTree → List TransactionData → Prop
  | _, [] => True
  | prev, d :: rest =>
      (d.status.isKeep = false → d.state_tree.root_hash = prev.root_hash) ∧
      discardChain d.state_tree rest

/-- One step of the source's mutable `next_validator_set` accumulation: a
transaction whose events contain the change key overwrites the value. -/
def vstep (acc : Option ValidatorSet) (o : TransactionOutput) : Option ValidatorSet :=
  match scanValidators o with
  | some v => some v
  | none => acc

/-- The next validator set the loop of process_vm_outputs computes over a
block: the decoded first matching event of the last transaction that has
any matching event. -/
def validatorsSpec (outs : List TransactionOutput) : Option ValidatorSet :=
  outs.foldl vstep none

def c3A2b : AccountMap := []

def c3Txns : List Transaction := [⟨1, .writeSetPayload 0⟩, ⟨2, .writeSetPayload 0⟩]

/-- A kept transaction with one write followed by a discarded transaction
with an empty write set and no events. -/
def c3Outs : List TransactionOutput :=
  [{ write_set := [(⟨1, 0⟩, .value 10)], events := [], gas_used := 3, status := .keep ⟨4001⟩ },
   { write_set := [], events := [], gas_used := 0, status := .discard ⟨10⟩ }]

def c3Out : ProcessedVMOutput :=
  (process_vm_outputs c3A2b c3Txns c3Outs ExecutedTrees.new_empty).toOption.getD
    ⟨[], ExecutedTrees.new_empty, none⟩

def c4A2b : AccountMap := []

def c4Txns : List Transaction := [⟨1, .writeSetPayload 0⟩, ⟨2, .writeSetPayload 0⟩]

/-- Two kept transactions that both emit a validator-set change event, the
first with payload 1 and the second with payload 2. -/
def c4Outs : List TransactionOutput :=
  [{ write_set := [(⟨1, 0⟩, .value 10)],
     events := [⟨validator_set_change_event_key, 1⟩], gas_used := 0, status := .keep ⟨4001⟩ },
   { write_set := [(⟨2, 0⟩, .value 11)],
     events := [⟨validator_set_change_event_key, 2⟩], gas_used := 0, status := .keep ⟨4001⟩ }]

def c4Out : ProcessedVMOutput :=
  (process_vm_outputs c4A2b c4Txns c4Outs ExecutedTrees.new_empty).toOption.getD
    ⟨[], ExecutedTrees.new_empty, none⟩

/-- C1: whenever `save_transactions` is given a ledger info, the transaction
accumulator root recomputed after applying `txns_to_commit` must equal the
root the ledger info carries.  If the version precheck passes and the roots
differ, the call fails with `RootHashMismatch`; and whenever the roots
differ the call never returns a new store state, so nothing is written (in
this state-passing embedding an `Except.error` result leaves the caller
with the unchanged store, mirroring the source, which rejects the pending
atomic batch before `commit`). -/
theorem save_transactions_root_check (s : StoreState) (txns : List TransactionToCommit)
    (first_version : Nat) (x : LedgerInfo) :
    (x.version + 1 = first_version + txns.length →
      save_root s txns first_version ≠ x.transaction_accumulator_hash →
      save_transactions s txns first_version (some x) = .error .rootHashMismatch) ∧
    (save_root s txns first_version ≠ x.transaction_accumulator_hash →
      ∀ s2, save_transactions s txns first_version (some x) ≠ .ok s2) := by
  constructor
  · intro hver hne
    simp only [save_root] at hne
    simp [save_transactions, versionMatches, hver, hne]
  · intro hne s2
    simp only [save_root] at hne
    by_cases hv : versionMatches (some x) first_version txns.length = false
    · simp [save_transactions, hv]
    · simp [save_transactions, hv, hne]

theorem save_transactions_root_check_witness :
    save_transactions
      { txnAccLeaves := [], txns := [], stateRoot := HashValue.placeholder,
        ledgerInfoByEpoch := [], latestLI := none, eventIndex := [] }
      [{ transaction := ⟨1, .writeSetPayload 0⟩, account_states := [(5, [(0, 9)])],
         events := [], gas_used := 0, major_status := 4001 }]
      0
      (some { epoch := 0, version := 0, transaction_accumulator_hash := HashValue.raw 99,
              next_validator_set := none })
    = .error .rootHashMismatch :=
  (save_transactions_root_check _ _ _ _).1 (by decide) (by decide)

/-- C9: `save_transactions` rejects an empty batch that comes without a
ledger info; rejects any batch with a ledger info whose version plus one
is not `first_version` plus the batch length; and consequently an empty
batch can only ever be accepted together with a ledger info whose version
is `first_version - 1`. -/
theorem save_transactions_batch_checks (s : StoreState) (txns : List TransactionToCommit)
    (first_version : Nat) (li : Option LedgerInfo) :
    (txns = [] → save_transactions s txns first_version none = .error .emptyBatchNoLedgerInfo) ∧
    (∀ x, li = some x → x.version + 1 ≠ first_version + txns.length →
      save_transactions s txns first_version li = .error .batchNotApplicable) ∧
    (∀ s2, save_transactions s txns first_version li = .ok s2 → txns = [] →
      ∃ x, li = some x ∧ x.version + 1 = first_version) := by
  refine ⟨?_, ?_, ?_⟩
  · intro h
    subst h
    simp [save_transactions]
  · intro x hx hne
    subst hx
    simp [save_transactions, versionMatches, hne]
  · intro s2 hok hemp
    subst hemp
    match hli : li with
    | none =>
        simp [save_transactions] at hok
    | some x =>
        refine ⟨x, rfl, ?_⟩
        by_cases hv : x.version + 1 = first_version
        · exact hv
        · exfalso
          simp [save_transactions, versionMatches, hv] at hok

theorem save_transactions_batch_checks_witness :
    (save_transactions
      { txnAccLeaves := [], txns := [], stateRoot := HashValue.placeholder,
        ledgerInfoByEpoch := [], latestLI := none, eventIndex := [] }
      [] 5 none = .error .emptyBatchNoLedgerInfo) ∧
    (save_transactions
      { txnAccLeaves := [], txns := [], stateRoot := HashValue.placeholder,
        ledgerInfoByEpoch := [], latestLI := none, eventIndex := [] }
      [] 5 (some { epoch := 0, version := 99, transaction_accumulator_hash := HashValue.placeholder,
                   next_validator_set := none }) = .error .batchNotApplicable) :=
  ⟨(save_transactions_batch_checks _ [] 5 none).1 rfl,
   (save_transactions_batch_checks _ [] 5 _).2.1 _ rfl (by decide)⟩

/-- C6: for a chunk whose range proof verifies, a non-empty transaction list
whose first version exceeds the number of locally committed transactions is
rejected with the recoverable TooNew error, and otherwise `verify_chunk`
returns exactly (num_committed - first_version) transactions to skip and
num_committed as the first version to commit. -/
theorem verify_chunk_skip_or_too_new (tl : TransactionListWithProof) (ledger_info : LedgerInfo)
    (num_committed_txns v : Nat)
    (hproof : tl.proof_valid = true)
    (hne : tl.transactions ≠ [])
    (hfv : tl.first_transaction_version = some v) :
    (num_committed_txns < v →
      verify_chunk tl ledger_info num_committed_txns = .error .chunkTooNew) ∧
    (v ≤ num_committed_txns →
      verify_chunk tl ledger_info num_committed_txns
        = .ok (num_committed_txns - v, num_committed_txns)) := by
  constructor
  · intro hlt
    simp [verify_chunk, TransactionListWithProof.verify, hproof, hne, hfv, not_le.mpr hlt]
  · intro hle
    simp [verify_chunk, TransactionListWithProof.verify, hproof, hne, hfv, hle]

theorem verify_chunk_skip_or_too_new_witness :
    (verify_chunk
      { transactions := [⟨7, .script 0⟩], first_transaction_version := some 3, proof_valid := true }
      { epoch := 0, version := 9, transaction_accumulator_hash := HashValue.placeholder,
        next_validator_set := none }
      5 = .ok (2, 5)) ∧
    (verify_chunk
      { transactions := [⟨7, .script 0⟩], first_transaction_version := some 8, proof_valid := true }
      { epoch := 0, version := 9, transaction_accumulator_hash := HashValue.placeholder,
        next_validator_set := none }
      5 = .error .chunkTooNew) :=
  ⟨(verify_chunk_skip_or_too_new _ _ 5 3 rfl (by decide) rfl).2 (by decide),
   (verify_chunk_skip_or_too_new _ _ 5 8 rfl (by decide) rfl).1 (by decide)⟩

/-- C8: in the faucet mint handler, whenever the on-chain designated-dealer
sequence number is ahead of the local designated-dealer mirror, the local
designated-dealer mirror is updated with the treasury-compliance sequence
number `tc_seq`, not with `dd_seq` (the known bug the design notes record). -/
theorem faucet_dd_mirror_updated_with_tc_seq (tc_seq dd_seq local_tc local_dd : Nat)
    (h : local_dd < dd_seq) :
    (faucet_update_local_sequences tc_seq dd_seq local_tc local_dd).2 = tc_seq := by
  simp [faucet_update_local_sequences, h]

theorem faucet_dd_mirror_updated_with_tc_seq_witness :
    (faucet_update_local_sequences 9 7 5 4).2 = 9 :=
  faucet_dd_mirror_updated_with_tc_seq 9 7 5 4 (by decide)

/-- C10: `ExecutedTrees.version` is `none` exactly when the transaction
accumulator has zero leaves and `some (num_leaves - 1)` otherwise, while
`state_compute_result` maps the zero-leaf case to version 0, the same value
it reports for a one-leaf accumulator, so the `StateComputeResult` version
cannot distinguish an empty ledger from one holding only genesis. -/
theorem executed_trees_version_vs_state_compute_result (t : ExecutedTrees)
    (o0 o1 : ProcessedVMOutput)
    (h0 : o0.executed_trees.transaction_accumulator.num_leaves = 0)
    (h1 : o1.executed_trees.transaction_accumulator.num_leaves = 1) :
    (t.version = none ↔ t.transaction_accumulator.num_leaves = 0) ∧
    (0 < t.transaction_accumulator.num_leaves →
      t.version = some (t.transaction_accumulator.num_leaves - 1)) ∧
    o0.state_compute_result.executed_state.version = 0 ∧
    o1.state_compute_result.executed_state.version = 0 := by
  refine ⟨?_, ?_, ?_, ?_⟩
  · constructor
    · intro hv
      by_contra hne
      simp [ExecutedTrees.version, Nat.pos_of_ne_zero hne] at hv
    · intro h
      simp [ExecutedTrees.version, h]
  · intro h
    simp [ExecutedTrees.version, h]
  · simp [ProcessedVMOutput.state_compute_result, h0]
  · simp [ProcessedVMOutput.state_compute_result, h1]

theorem executed_trees_version_vs_state_compute_result_witness :
    (ExecutedTrees.new_empty.version = none ↔
      ExecutedTrees.new_empty.transaction_accumulator.num_leaves = 0) ∧
    (0 < ExecutedTrees.new_empty.transaction_accumulator.num_leaves →
      ExecutedTrees.new_empty.version
        = some (ExecutedTrees.new_empty.transaction_accumulator.num_leaves - 1)) ∧
    (ProcessedVMOutput.state_compute_result
        ⟨[], ExecutedTrees.new_empty, none⟩).executed_state.version = 0 ∧
    (ProcessedVMOutput.state_compute_result
        ⟨[], ⟨ExecutedTrees.new_empty.state_tree, ⟨[HashValue.raw 3]⟩⟩,
         none⟩).executed_state.version = 0 :=
  executed_trees_version_vs_state_compute_result _ _ _ rfl rfl

/-- C5, counterexample: at this concrete input the speculative leaf count (1)
differs from ledger_info.version + 1 (6), and `commit_blocks` fails via the
`assert_eq!` process abort, not by returning a recoverable VersionMismatch
error to the caller as the claim states. -/
theorem commit_blocks_version_mismatch_counterexample :
    commit_blocks emptyStore c5Blocks c5LedgerInfo ExecutedTrees.new_empty
      = .error (.abort .versionAssert) ∧
    (ExecErr.abort .versionAssert).isRecoverable = false ∧
    (Except.error (ExecErr.abort .versionAssert) : Except ExecErr StoreState)
      ≠ .error ExecErr.versionMismatch := by
  refine ⟨rfl, rfl, ?_⟩
  simp

/-- C5, amended: every call to `commit_blocks` in which the leaf count of the
last block's speculative transaction accumulator differs from
ledger_info.version + 1 (and which gets as far as that check: the block
list is non-empty and each block's transaction list matches its transaction
data in length) aborts the process through the `assert_eq!` version check;
the mismatch is not returned to the caller as a recoverable error. -/
theorem commit_blocks_version_mismatch_aborts (s : StoreState)
    (blocks : List (List Transaction × ProcessedVMOutput)) (li : LedgerInfo)
    (synced : ExecutedTrees) (lastb : List Transaction × ProcessedVMOutput)
    (hzip : blocksZipOk blocks = true)
    (hlast : blocks.getLast? = some lastb)
    (hver : li.version + 1 ≠ lastb.2.executed_trees.transaction_accumulator.num_leaves) :
    commit_blocks s blocks li synced = .error (.abort .versionAssert) := by
  simp only [commit_blocks, hlast]
  rw [if_neg (by simp [hzip])]
  rw [if_pos hver]

theorem commit_blocks_version_mismatch_aborts_witness :
    commit_blocks emptyStore c5Blocks c5LedgerInfo
      ⟨ExecutedTrees.new_empty.state_tree, ⟨[HashValue.raw 9]⟩⟩
      = .error (.abort .versionAssert) :=
  commit_blocks_version_mismatch_aborts emptyStore c5Blocks c5LedgerInfo
    ⟨ExecutedTrees.new_empty.state_tree, ⟨[HashValue.raw 9]⟩⟩ c5Block1
    (by decide) (by decide) (by decide)

/-- C2: when the version check passes (the last block's speculative leaf
count is `version + 1`), the kept-transaction count does not exceed
`version + 1`, `first_version_to_keep = version + 1 - |kept|` is at most
the number of already-persisted transactions and the batch covers the
persisted prefix (`persisted <= version + 1`), `commit_blocks` drops
exactly `persisted - first_version_to_keep` leading kept transactions and
hands exactly the remaining suffix to `save_transactions`, starting at the
first version not yet persisted (the persisted-transaction count); hence
re-submitting an already-persisted prefix as part of a larger batch yields
the very same `save_transactions` call, and so the same post-root, as
submitting only the suffix. -/
theorem commit_blocks_skips_persisted (s : StoreState)
    (blocks : List (List Transaction × ProcessedVMOutput)) (li : LedgerInfo)
    (synced : ExecutedTrees) (lastb : List Transaction × ProcessedVMOutput)
    (hzip : blocksZipOk blocks = true)
    (hlast : blocks.getLast? = some lastb)
    (hver : li.version + 1 = lastb.2.executed_trees.transaction_accumulator.num_leaves)
    (hkeep : (txns_to_keep_of blocks).length ≤ li.version + 1)
    (hfvk : li.version + 1 - (txns_to_keep_of blocks).length
              ≤ synced.transaction_accumulator.num_leaves)
    (hcover : synced.transaction_accumulator.num_leaves ≤ li.version + 1) :
    commit_blocks s blocks li synced =
      liftStorage (save_transactions s
        (((txns_to_keep_of blocks).map Prod.fst).drop
          (synced.transaction_accumulator.num_leaves
            - (li.version + 1 - (txns_to_keep_of blocks).length)))
        synced.transaction_accumulator.num_leaves
        (some li)) := by
  have hdroplen :
      (((txns_to_keep_of blocks).map Prod.fst).drop
        (synced.transaction_accumulator.num_leaves
          - (li.version + 1 - (txns_to_keep_of blocks).length))).length
      = (txns_to_keep_of blocks).length
        - (synced.transaction_accumulator.num_leaves
            - (li.version + 1 - (txns_to_keep_of blocks).length)) := by
    simp
  simp only [commit_blocks, hlast]
  rw [if_neg (by simp [hzip])]
  rw [if_neg (by simp [hver])]
  rw [if_neg (by omega)]
  rw [if_neg (by simp only [not_not]; omega)]
  rw [if_neg (by simp only [not_not]; rw [hdroplen]; omega)]
  rw [show li.version + 1 - (txns_to_keep_of blocks).length
        + (synced.transaction_accumulator.num_leaves
            - (li.version + 1 - (txns_to_keep_of blocks).length))
        = synced.transaction_accumulator.num_leaves from by omega]

theorem commit_blocks_skips_persisted_witness :
    commit_blocks emptyStore c2Blocks c2LedgerInfo c2Synced =
      liftStorage (save_transactions emptyStore
        (((txns_to_keep_of c2Blocks).map Prod.fst).drop
          (c2Synced.transaction_accumulator.num_leaves
            - (c2LedgerInfo.version + 1 - (txns_to_keep_of c2Blocks).length)))
        c2Synced.transaction_accumulator.num_leaves
        (some c2LedgerInfo)) :=
  commit_blocks_skips_persisted emptyStore c2Blocks c2LedgerInfo c2Synced c2Block
    (by decide) (by decide) (by decide) (by decide) (by decide) (by decide)

/-- C7: the shared gate `error_if_too_many_requested` fails exactly above
`MAX_LIMIT = 1000`, and both limit-taking paged read endpoints
(`get_transactions` and `get_events_by_event_key`, which `get_events`
delegates to) fail with TooManyRequested for any limit above 1000; the
epoch-paged endpoint `get_epoch_ending_ledger_infos` returns at most
`MAX_NUM_EPOCH_ENDING_LEDGER_INFO = 100` ledger infos per response, and
its boolean flag is true exactly when the requested epoch range exceeds
that cap. -/
theorem paged_reads_enforce_limits :
    MAX_LIMIT = 1000 ∧
    MAX_NUM_EPOCH_ENDING_LEDGER_INFO = 100 ∧
    (∀ (s : StoreState) (start_version limit ledger_version : Nat) (fetch_events : Bool)
       (key start_seq_num : Nat) (ascending : Bool),
      1000 < limit →
        error_if_too_many_requested limit MAX_LIMIT = .error .tooManyRequested ∧
        get_transactions s start_version limit ledger_version fetch_events
          = .error .tooManyRequested ∧
        get_events_by_event_key s key start_seq_num ascending limit ledger_version
          = .error .tooManyRequested) ∧
    (∀ (s : StoreState) (start_epoch end_epoch : Nat) (lis : List LedgerInfo) (more : Bool),
      get_epoch_ending_ledger_infos s start_epoch end_epoch = .ok (lis, more) →
        lis.length ≤ 100 ∧ (more = true ↔ 100 < end_epoch - start_epoch)) := by
  refine ⟨rfl, rfl, ?_, ?_⟩
  · intro s start_version limit ledger_version fetch_events key start_seq_num ascending hlim
    have hgate : error_if_too_many_requested limit MAX_LIMIT = .error .tooManyRequested := by
      simp [error_if_too_many_requested, MAX_LIMIT, hlim]
    refine ⟨hgate, ?_, ?_⟩
    · simp [get_transactions, hgate]
    · simp [get_events_by_event_key, hgate]
  · intro s start_epoch end_epoch lis more hok
    unfold get_epoch_ending_ledger_infos get_epoch_ending_ledger_infos_impl at hok
    split at hok
    · exact absurd hok (by simp)
    · split at hok
      · exact absurd hok (by simp)
      · rename_i latest heq
        split at hok
        · rename_i hm
          simp only [] at hok
          split at hok
          · exact absurd hok (by simp)
          · split at hok
            · rename_i hlen
              simp only [Except.ok.injEq, Prod.mk.injEq] at hok
              obtain ⟨hl, hmore⟩ := hok
              subst hl
              subst hmore
              constructor
              · rw [hlen]
                simp [MAX_NUM_EPOCH_ENDING_LEDGER_INFO]
              · simp only [MAX_NUM_EPOCH_ENDING_LEDGER_INFO] at hm
                simp [hm]
            · exact absurd hok (by simp)
        · rename_i hm
          simp only [] at hok
          split at hok
          · exact absurd hok (by simp)
          · split at hok
            · rename_i hlen
              simp only [Except.ok.injEq, Prod.mk.injEq] at hok
              obtain ⟨hl, hmore⟩ := hok
              subst hl
              subst hmore
              simp only [MAX_NUM_EPOCH_ENDING_LEDGER_INFO] at hm hlen
              constructor
              · rw [hlen]
                omega
              · simp
                omega
            · exact absurd hok (by simp)

theorem paged_reads_enforce_limits_witness :
    (error_if_too_many_requested 1001 MAX_LIMIT = .error .tooManyRequested ∧
     get_transactions emptyStore 0 1001 0 false = .error .tooManyRequested ∧
     get_events_by_event_key emptyStore 3 0 true 1001 0 = .error .tooManyRequested) ∧
    (([c7LedgerInfo] : List LedgerInfo).length ≤ 100 ∧ (false = true ↔ 100 < 1 - 0)) :=
  ⟨paged_reads_enforce_limits.2.2.1 emptyStore 0 1001 0 false 3 0 true (by decide),
   paged_reads_enforce_limits.2.2.2 c7Store 0 1 [c7LedgerInfo] false rfl⟩

theorem vstep_foldl_init (l : List TransactionOutput) (a : Option ValidatorSet) :
    l.foldl vstep a = match l.foldl vstep none with | some v => some v | none => a := by
  induction l generalizing a with
  | nil => simp
  | cons o l ih =>
      simp only [List.foldl_cons]
      rw [ih (vstep a o), ih (vstep none o)]
      cases hfold : l.foldl vstep none with
      | some v => simp
      | none =>
          simp only []
          cases hscan : scanValidators o with
          | some v => simp [vstep, hscan]
          | none => simp [vstep, hscan]

theorem validatorsSpec_cons (o : TransactionOutput) (rest : List TransactionOutput) :
    validatorsSpec (o :: rest)
      = match validatorsSpec rest with | some v => some v | none => scanValidators o := by
  unfold validatorsSpec
  simp only [List.foldl_cons]
  rw [vstep_foldl_init]
  cases hfold : rest.foldl vstep none with
  | some v => simp
  | none =>
      cases hscan : scanValidators o with
      | some v => simp [vstep, hscan]
      | none => simp [vstep, hscan]

theorem process_write_set_nil (txn : Transaction) (a2b : AccountMap)
    (cur : SparseMerkleTree) :
    process_write_set txn a2b [] cur = .ok ([], cur, 0, a2b) := rfl

theorem keepDiscardCheck_ok (out : TransactionOutput) (st : SparseMerkleTree)
    (evt : InMemoryAccumulator) (txn : Transaction) (r : Option HashValue)
    (h : keepDiscardCheck out st evt txn = .ok r) :
    (out.status.isKeep = true → out.write_set ≠ [] ∧ r.isSome = true) ∧
    (out.status.isKeep = false → out.write_set = [] ∧ out.events = [] ∧ r = none) := by
  unfold keepDiscardCheck at h
  split at h
  · rename_i s hst
    split at h
    · exact absurd h (by simp)
    · rename_i hws
      simp only [Except.ok.injEq] at h
      subst h
      constructor
      · intro _
        constructor
        · intro hnil
          rw [hnil] at hws
          exact hws rfl
        · rfl
      · intro hk
        rw [hst] at hk
        simp [TransactionStatus.isKeep] at hk
  · rename_i s hst
    split at h
    · exact absurd h (by simp)
    · rename_i hws
      split at h
      · exact absurd h (by simp)
      · rename_i hev
        simp only [Except.ok.injEq] at h
        subst h
        constructor
        · intro hk
          rw [hst] at hk
          simp [TransactionStatus.isKeep] at hk
        · intro _
          simp only [not_not] at hws hev
          refine ⟨?_, ?_, rfl⟩
          · cases hl : out.write_set with
            | nil => rfl
            | cons a l =>
                rw [hl] at hws
                simp [List.isEmpty] at hws
          · cases hl : out.events with
            | nil => rfl
            | cons a l =>
                rw [hl] at hev
                simp [List.isEmpty] at hev

theorem forall_mem_fst_of_zip {α β : Type} {P : α → Prop} :
    ∀ (l1 : List α) (l2 : List β), l1.length = l2.length →
      (∀ p ∈ l1.zip l2, P p.1) → ∀ a ∈ l1, P a := by
  intro l1
  induction l1 with
  | nil =>
      intro l2 h hp a ha
      cases ha
  | cons x xs ih =>
      intro l2 h hp a ha
      cases l2 with
      | nil => simp at h
      | cons y ys =>
          rcases List.mem_cons.mp ha with rfl | ha2
          · exact hp (a, y) (by simp)
          · exact ih ys (by simpa using h) (fun p hp2 => hp p (by simp [hp2])) a ha2

theorem length_filter_fst_zip {α β : Type} (q : α → Bool) :
    ∀ (l1 : List α) (l2 : List β), l1.length = l2.length →
      ((l1.zip l2).filter (fun p => q p.1)).length = (l1.filter q).length := by
  intro l1
  induction l1 with
  | nil => simp
  | cons x xs ih =>
      intro l2 h
      cases l2 with
      | nil => simp at h
      | cons y ys =>
          simp only [List.zip_cons_cons, List.filter_cons]
          by_cases hq : q x = true
          · simp only [hq, if_pos]
            simp [ih ys (by simpa using h)]
          · simp only [hq]
            simp [ih ys (by simpa using h), hq]

/-- What a successful run of the per-transaction loop guarantees: every
processed output obeys the Keep/Discard write-set discipline, the kept
txn-info hashes are as many as the kept outputs, discarded transactions
leave the state tree root unchanged and carry no txn-info hash, and the
accumulated next validator set is the last-transaction-wins scan. -/
theorem process_loop_spec :
    ∀ (pairs : List (TransactionOutput × Transaction)) (a2b : AccountMap)
      (cur : SparseMerkleTree) (td : List TransactionData) (cur2 : SparseMerkleTree)
      (hashes : List HashValue) (nvs : Option ValidatorSet),
      process_loop a2b cur pairs = .ok (td, cur2, hashes, nvs) →
      (∀ p ∈ pairs, outputStatusOk p.1) ∧
      hashes.length = (pairs.filter (fun p => p.1.status.isKeep)).length ∧
      discardChain cur td ∧
      (∀ d ∈ td, d.status.isKeep = false → d.txn_info_hash = none) ∧
      nvs = validatorsSpec (pairs.map Prod.fst) := by
  intro pairs
  induction pairs with
  | nil =>
      intro a2b cur td cur2 hashes nvs h
      simp only [process_loop, Except.ok.injEq, Prod.mk.injEq] at h
      obtain ⟨h1, h2, h3, h4⟩ := h
      subst h1
      subst h3
      subst h4
      simp [discardChain, validatorsSpec]
  | cons hd rest ih =>
      obtain ⟨out, txn⟩ := hd
      intro a2b cur td cur2 hashes nvs h
      rw [process_loop] at h
      split at h
      · exact absurd h (by simp)
      · rename_i blobs state_tree created a2b1 hpw
        split at h
        · exact absurd h (by simp)
        · rename_i tih hkd
          split at h
          · exact absurd h (by simp)
          · rename_i td1 cur1 hashes1 nvsRest hrec
            simp only [Except.ok.injEq, Prod.mk.injEq] at h
            obtain ⟨htd, hcur, hhashes, hnvs⟩ := h
            subst htd
            subst hcur
            subst hhashes
            subst hnvs
            obtain ⟨ihP, ihLen, ihChain, ihNone, ihNvs⟩ :=
              ih a2b1 state_tree td1 _ hashes1 nvsRest hrec
            have hkds := keepDiscardCheck_ok out state_tree
              (InMemoryAccumulator.from_leaves (out.events.map ContractEvent.hash)) txn tih hkd
            refine ⟨?_, ?_, ?_, ?_, ?_⟩
            · intro p hp
              rcases List.mem_cons.mp hp with rfl | hp2
              · exact ⟨fun hk => (hkds.1 hk).1, fun hk => ⟨(hkds.2 hk).1, (hkds.2 hk).2.1⟩⟩
              · exact ihP p hp2
            · simp only [List.filter_cons]
              cases hk : out.status.isKeep with
              | true =>
                  obtain ⟨-, hsome⟩ := hkds.1 hk
                  cases htih : tih with
                  | none => simp [htih] at hsome
                  | some hh => simp [htih, hk, ihLen]
              | false =>
                  obtain ⟨-, -, hnone⟩ := hkds.2 hk
                  subst hnone
                  simp [hk, ihLen]
            · simp only [discardChain]
              refine ⟨?_, ihChain⟩
              intro hk
              have hk2 : out.status.isKeep = false := hk
              obtain ⟨hws, -, -⟩ := hkds.2 hk2
              rw [hws, process_write_set_nil] at hpw
              simp only [Except.ok.injEq, Prod.mk.injEq] at hpw
              show state_tree.root_hash = cur.root_hash
              rw [hpw.2.1]
            · intro d hd
              rcases List.mem_cons.mp hd with rfl | hd2
              · intro hk
                have hk2 : out.status.isKeep = false := hk
                obtain ⟨-, -, hnone⟩ := hkds.2 hk2
                exact hnone
              · exact ihNone d hd2
            · simp only [List.map_cons]
              rw [validatorsSpec_cons, ← ihNvs]

/-- C3: a block run through `process_vm_outputs` succeeds only if every VM
output with Keep status has a non-empty write set and every output with
Discard status has an empty write set and an empty event list; on success a
Discard output contributes no txn-info hash to the transaction accumulator
and leaves the state tree root unchanged, so the accumulator grows by
exactly the number of Keep-status outputs. -/
theorem process_vm_outputs_keep_discard (a2b : AccountMap) (transactions : List Transaction)
    (vm_outputs : List TransactionOutput) (parent : ExecutedTrees) (out : ProcessedVMOutput)
    (h : process_vm_outputs a2b transactions vm_outputs parent = .ok out) :
    (∀ o ∈ vm_outputs, outputStatusOk o) ∧
    out.executed_trees.transaction_accumulator.num_leaves
      = parent.transaction_accumulator.num_leaves
        + (vm_outputs.filter (fun o => o.status.isKeep)).length ∧
    discardChain parent.state_tree out.transaction_data ∧
    (∀ d ∈ out.transaction_data, d.status.isKeep = false → d.txn_info_hash = none) := by
  unfold process_vm_outputs at h
  split at h
  · rename_i hlen
    split at h
    · exact absurd h (by simp)
    · rename_i td cur hashes nvs hloop
      simp only [Except.ok.injEq] at h
      subst h
      obtain ⟨hP, hLen, hChain, hNone, -⟩ :=
        process_loop_spec (vm_outputs.zip transactions) a2b parent.state_tree td cur hashes nvs hloop
      refine ⟨?_, ?_, hChain, hNone⟩
      · exact forall_mem_fst_of_zip vm_outputs transactions hlen hP
      · show (parent.transaction_accumulator.append hashes).num_leaves = _
        unfold InMemoryAccumulator.append InMemoryAccumulator.num_leaves
        simp only [List.length_append]
        have hq : (List.filter (fun p => p.1.status.isKeep) (vm_outputs.zip transactions)).length
            = (List.filter (fun o => o.status.isKeep) vm_outputs).length :=
          length_filter_fst_zip (fun o : TransactionOutput => o.status.isKeep)
            vm_outputs transactions hlen
        omega
  · exact absurd h (by simp)

theorem process_vm_outputs_keep_discard_witness :
    c3Out.executed_trees.transaction_accumulator.num_leaves
      = ExecutedTrees.new_empty.transaction_accumulator.num_leaves
        + (c3Outs.filter (fun o => o.status.isKeep)).length :=
  (process_vm_outputs_keep_discard c3A2b c3Txns c3Outs ExecutedTrees.new_empty c3Out rfl).2.1

/-- C4, counterexample: in this block the first validator-set change event
carries payload 1, yet `process_vm_outputs` succeeds with the validator set
decoded from payload 2 (the second transaction's event): the loop
overwrites `next_validator_set` per transaction, so the first event in the
block does not win. -/
theorem process_vm_outputs_first_event_counterexample :
    (match process_vm_outputs c4A2b c4Txns c4Outs ExecutedTrees.new_empty with
     | .ok o => o.validators
     | .error _ => none) = some (ValidatorSet.from_bytes 2) ∧
    firstChangeEvent (c4Outs.flatMap TransactionOutput.events)
      = some ⟨validator_set_change_event_key, 1⟩ ∧
    ValidatorSet.from_bytes 2 ≠ ValidatorSet.from_bytes 1 :=
  ⟨rfl, rfl, by decide⟩

/-- C4, amended: on success the next-validator-set field of the returned
`ProcessedVMOutput` is the one decoded from the first matching event of the
LAST transaction in the block that emits any validator-set change event
(within one transaction the first matching event wins; across transactions
the last such transaction wins), as computed by `validatorsSpec`. -/
theorem process_vm_outputs_validators (a2b : AccountMap) (transactions : List Transaction)
    (vm_outputs : List TransactionOutput) (parent : ExecutedTrees) (out : ProcessedVMOutput)
    (h : process_vm_outputs a2b transactions vm_outputs parent = .ok out) :
    out.validators = validatorsSpec vm_outputs := by
  unfold process_vm_outputs at h
  split at h
  · rename_i hlen
    split at h
    · exact absurd h (by simp)
    · rename_i td cur hashes nvs hloop
      simp only [Except.ok.injEq] at h
      subst h
      obtain ⟨-, -, -, -, hNvs⟩ :=
        process_loop_spec (vm_outputs.zip transactions) a2b parent.state_tree td cur hashes nvs hloop
      show nvs = _
      rw [hNvs, List.map_fst_zip vm_outputs transactions (le_of_eq hlen)]
  · exact absurd h (by simp)

theorem process_vm_outputs_validators_witness :
    c4Out.validators = validatorsSpec c4Outs :=
  process_vm_outputs_validators c4A2b c4Txns c4Outs ExecutedTrees.new_empty c4Out rfl
